import Mathlib

/-
Verification development for the Opportunity Lifecycle & Orchestration Engine
of the SyntheticDrift-GradientAscent repository (directory ai-agents).

The Python sources are shallowly embedded:
* Python str values are List Char (or String where convenient);
  the helpers below model the Python str methods used by the sources
  (strip, split, the in operator).
* Python float values coming from JSON payloads are modelled as Rat,
  built exclusively through mkRat so that all arithmetic reduces in the
  kernel; ratMul below is proved equal to rational multiplication.
* json.loads is modelled by an executable JSON parser (pyJsonLoads);
  float()/int() coercions by pyFloatJson/pyIntJson.
* MongoDB state (the agent_decisions collection) is a list of
  StoredDecision records kept in the order the newest-first query
  returns them; update_one / update_many become list transformations.
* Exceptions are modelled with Option/Except: a none result at a given
  scope corresponds to the exception caught by the handler at that scope.
-/

/-! ## Python string helpers (str.strip, str.split, in) -/

def isWsChar (c : Char) : Bool :=
  c = ' ' || c = '\n' || c = '\t' || c = '\r'

/-- Python str.strip() with no argument: drop whitespace on both ends. -/
def pyStrip (l : List Char) : List Char :=
  ((l.dropWhile isWsChar).reverse.dropWhile isWsChar).reverse

def isPrefixList : List Char → List Char → Bool
  | [], _ => true
  | _ :: _, [] => false
  | a :: l1, b :: l2 => a = b && isPrefixList l1 l2

/-- Index of the first occurrence of sep in the list, if any. -/
def findSub (sep : List Char) : List Char → Option Nat
  | [] => if isPrefixList sep [] then some 0 else none
  | c :: rest =>
    if isPrefixList sep (c :: rest) then some 0
    else (findSub sep rest).map (· + 1)

def containsSub (sep l : List Char) : Bool :=
  (findSub sep l).isSome

def pySplitGo (sep : List Char) : Nat → List Char → List (List Char)
  | 0, s => [s]
  | fuel + 1, s =>
    match findSub sep s with
    | none => [s]
    | some i => s.take i :: pySplitGo sep fuel (s.drop (i + sep.length))

/-- Python str.split(sep) for a non-empty separator. -/
def pySplit (sep s : List Char) : List (List Char) :=
  pySplitGo sep (s.length + 1) s

/-! ## JSON values and a structural parser (model of json.loads) -/

inductive Json where
  | null
  | bool (b : Bool)
  | num (q : Rat)
  | str (s : String)
  | arr (elements : List Json)
  | obj (fields : List (String × Json))

def lbraceChar : Char := Char.ofNat 123

def rbraceChar : Char := Char.ofNat 125

def skipWs (l : List Char) : List Char := l.dropWhile isWsChar

def digitVal (c : Char) : Nat := c.toNat - 48

def digitsToNat (l : List Char) : Nat :=
  l.foldl (fun acc c => acc * 10 + digitVal c) 0

def hexDigitVal (c : Char) : Option Nat :=
  if c.isDigit then some (c.toNat - 48)
  else if 'a' ≤ c && c ≤ 'f' then some (c.toNat - 97 + 10)
  else if 'A' ≤ c && c ≤ 'F' then some (c.toNat - 65 + 10)
  else none

def escChar (c : Char) : Option Char :=
  if c = '"' then some '"'
  else if c = '\\' then some '\\'
  else if c = '/' then some '/'
  else if c = 'n' then some '\n'
  else if c = 't' then some '\t'
  else if c = 'r' then some '\r'
  else if c = 'b' then some (Char.ofNat 8)
  else if c = 'f' then some (Char.ofNat 12)
  else none

/-- Scan a JSON string body (after the opening quote), handling escapes. -/
def pStrAux : Nat → List Char → Option (List Char × List Char)
  | 0, _ => none
  | _ + 1, [] => none
  | fuel + 1, c :: rest =>
    if c = '"' then some ([], rest)
    else if c = '\\' then
      match rest with
      | [] => none
      | e :: rest2 =>
        if e = 'u' then
          match rest2 with
          | h1 :: h2 :: h3 :: h4 :: rest3 =>
            match hexDigitVal h1, hexDigitVal h2, hexDigitVal h3, hexDigitVal h4 with
            | some a, some b, some c2, some d =>
              match pStrAux fuel rest3 with
              | some (s, r) => some (Char.ofNat (((a * 16 + b) * 16 + c2) * 16 + d) :: s, r)
              | none => none
            | _, _, _, _ => none
          | _ => none
        else
          match escChar e with
          | some ec =>
            match pStrAux fuel rest2 with
            | some (s, r) => some (ec :: s, r)
            | none => none
          | none => none
    else
      match pStrAux fuel rest with
      | some (s, r) => some (c :: s, r)
      | none => none

def spanDigits (l : List Char) : List Char × List Char :=
  (l.takeWhile Char.isDigit, l.dropWhile Char.isDigit)

/-- Assemble a rational from sign, integer digits, fraction digits and a
decimal exponent, using only integer arithmetic and one mkRat. -/
def mkNumRat (neg : Bool) (ip fr : List Char) (eneg : Bool) (ed : List Char) : Rat :=
  let mant : Nat := digitsToNat ip * 10 ^ fr.length + digitsToNat fr
  let e : Nat := digitsToNat ed
  let signedNum : Int := if neg then -(mant : Int) else (mant : Int)
  if eneg then mkRat signedNum (10 ^ (fr.length + e))
  else mkRat (signedNum * (10 : Int) ^ e) (10 ^ fr.length)

def pNumExpSign (neg : Bool) (ip fr : List Char) (l : List Char) :
    Option (Rat × List Char) :=
  let sg : Bool × List Char :=
    match l with
    | '+' :: rest => (false, rest)
    | '-' :: rest => (true, rest)
    | _ => (false, l)
  let (ed, l2) := spanDigits sg.2
  if ed.isEmpty then none else some (mkNumRat neg ip fr sg.1 ed, l2)

def pNumExp (neg : Bool) (ip fr : List Char) (l : List Char) :
    Option (Rat × List Char) :=
  match l with
  | 'e' :: rest => pNumExpSign neg ip fr rest
  | 'E' :: rest => pNumExpSign neg ip fr rest
  | _ => some (mkNumRat neg ip fr false [], l)

def pNum (l : List Char) : Option (Rat × List Char) :=
  let sg : Bool × List Char :=
    match l with
    | '-' :: rest => (true, rest)
    | _ => (false, l)
  let (ip, l2) := spanDigits sg.2
  if ip.isEmpty then none
  else
    match l2 with
    | '.' :: rest =>
      let (fr, l3) := spanDigits rest
      if fr.isEmpty then none else pNumExp sg.1 ip fr l3
    | _ => pNumExp sg.1 ip [] l2

mutual

def pVal : Nat → List Char → Option (Json × List Char)
  | 0, _ => none
  | fuel + 1, l =>
    let s := skipWs l
    match s with
    | [] => none
    | c :: rest =>
      if c = 'n' then
        if isPrefixList "ull".data rest then some (.null, rest.drop 3) else none
      else if c = 't' then
        if isPrefixList "rue".data rest then some (.bool true, rest.drop 3) else none
      else if c = 'f' then
        if isPrefixList "alse".data rest then some (.bool false, rest.drop 4) else none
      else if c = '"' then
        match pStrAux (rest.length + 1) rest with
        | some (cs, r) => some (.str (String.mk cs), r)
        | none => none
      else if c = '[' then pArrAfterOpen fuel rest
      else if c = lbraceChar then pObjAfterOpen fuel rest
      else
        match pNum s with
        | some (q, r) => some (.num q, r)
        | none => none

def pArrAfterOpen : Nat → List Char → Option (Json × List Char)
  | 0, _ => none
  | fuel + 1, l =>
    let s := skipWs l
    match s with
    | ']' :: rest => some (.arr [], rest)
    | _ =>
      match pVal fuel s with
      | some (v, r) => pArrRest fuel [v] r
      | none => none

def pArrRest : Nat → List Json → List Char → Option (Json × List Char)
  | 0, _, _ => none
  | fuel + 1, acc, l =>
    let s := skipWs l
    match s with
    | ']' :: rest => some (.arr acc.reverse, rest)
    | ',' :: rest =>
      match pVal fuel rest with
      | some (v, r) => pArrRest fuel (v :: acc) r
      | none => none
    | _ => none

def pObjAfterOpen : Nat → List Char → Option (Json × List Char)
  | 0, _ => none
  | fuel + 1, l =>
    let s := skipWs l
    match s with
    | c :: rest =>
      if c = rbraceChar then some (.obj [], rest)
      else if c = '"' then
        match pStrAux (rest.length + 1) rest with
        | some (k, r) => pObjVal fuel (String.mk k) [] r
        | none => none
      else none
    | [] => none

def pObjVal : Nat → String → List (String × Json) → List Char → Option (Json × List Char)
  | 0, _, _, _ => none
  | fuel + 1, key, acc, l =>
    let s := skipWs l
    match s with
    | ':' :: rest =>
      match pVal fuel rest with
      | some (v, r) => pObjRest fuel ((key, v) :: acc) r
      | none => none
    | _ => none

def pObjRest : Nat → List (String × Json) → List Char → Option (Json × List Char)
  | 0, _, _ => none
  | fuel + 1, acc, l =>
    let s := skipWs l
    match s with
    | c :: rest =>
      if c = rbraceChar then some (.obj acc.reverse, rest)
      else if c = ',' then
        match skipWs rest with
        | c2 :: rest2 =>
          if c2 = '"' then
            match pStrAux (rest2.length + 1) rest2 with
            | some (k, r) => pObjVal fuel (String.mk k) acc r
            | none => none
          else none
        | [] => none
      else none
    | [] => none

end

/-- Model of json.loads: parse one JSON document, requiring the remainder
to be whitespace, as the Python parser does. Returns none where Python
raises json.JSONDecodeError. -/
def pyJsonLoads (l : List Char) : Option Json :=
  match pVal (2 * l.length + 8) l with
  | some (v, rest) => if (skipWs rest).isEmpty then some v else none
  | none => none

/-! ## Opportunity Record model and field coercions
(simple_ai_agent.MarketOpportunity and the field-by-field coercions in
SimpleAIAgent.analyze_product) -/

structure MarketOpportunity where
  type : String
  confidence : Rat
  potential_profit : Rat
  source_store : String
  target_store : String
  quantity : Int
  reasoning : String
  urgency : String
deriving DecidableEq

/-- Lookup in a parsed JSON object, model of dict access: json.loads keeps
the last occurrence of a duplicated key, hence the reverse. -/
def jget (fields : List (String × Json)) (key : String) : Option Json :=
  (fields.reverse.find? (fun kv => kv.1 = key)).map (fun kv => kv.2)

/-- Parse a numeric Python string literal (used by float() on str inputs):
optional surrounding whitespace around a decimal numeral. -/
def parseNumStr (s : String) : Option Rat :=
  match pNum (skipWs s.data) with
  | some (q, rest) => if (skipWs rest).isEmpty then some q else none
  | none => none

/-- Model of Python float(v) for a JSON-decoded value v.
none models the ValueError/TypeError raised by float(). -/
def pyFloatJson : Json → Option Rat
  | .num q => some q
  | .str s => parseNumStr s
  | .bool b => some (if b then mkRat 1 1 else mkRat 0 1)
  | .null => none
  | .arr _ => none
  | .obj _ => none

/-- Truncation toward zero, the behaviour of Python int() on a float. -/
def ratTrunc (q : Rat) : Int := q.num.tdiv (q.den : Int)

/-- Parse an integer Python string literal (used by int() on str inputs). -/
def parseIntStr (s : String) : Option Int :=
  let sg : Bool × List Char :=
    match skipWs s.data with
    | '-' :: rest => (true, rest)
    | l => (false, l)
  let (ds, rest) := spanDigits sg.2
  if ds.isEmpty then none
  else if (skipWs rest).isEmpty then
    some (if sg.1 then -(digitsToNat ds : Int) else (digitsToNat ds : Int))
  else none

/-- Model of Python int(v) for a JSON-decoded value v. -/
def pyIntJson : Json → Option Int
  | .num q => some (ratTrunc q)
  | .str s => parseIntStr s
  | .bool b => some (if b then 1 else 0)
  | .null => none
  | .arr _ => none
  | .obj _ => none

/-- opp.get(key, default) followed by float(): a missing key defaults to 0. -/
def floatField (fields : List (String × Json)) (key : String) : Option Rat :=
  pyFloatJson ((jget fields key).getD (.num (mkRat 0 1)))

/-- opp.get(key, default) followed by int(): a missing key defaults to 0. -/
def intField (fields : List (String × Json)) (key : String) : Option Int :=
  pyIntJson ((jget fields key).getD (.num (mkRat 0 1)))

/-- opp.get(key, default) for the text fields. The oracle schema types these
fields as strings; non-string JSON values for them are outside the modelled
input space and are mapped to the default. -/
def strField (fields : List (String × Json)) (key dflt : String) : String :=
  match jget fields key with
  | some (.str s) => s
  | _ => dflt

/-- Model of the expression opp.get(key) or two-single-quotes used for the
store fields: a missing key or a null/falsy value yields the empty string. -/
def storeField (fields : List (String × Json)) (key : String) : String :=
  match jget fields key with
  | some (.str s) => s
  | _ => ""

/-- Coerce one opportunity entry (lines 223-232 of simple_ai_agent.py).
none models an exception escaping the entry coercion (a non-dict entry, or
float()/int() raising); in the source that exception is only caught by the
outer handler of analyze_product. -/
def coerceOpp : Json → Option MarketOpportunity
  | .obj fields =>
    match floatField fields "confidence", floatField fields "potential_profit",
          intField fields "quantity" with
    | some conf, some profit, some qty =>
      some { type := strField fields "type" "unknown",
             confidence := conf,
             potential_profit := profit,
             source_store := storeField fields "source_store",
             target_store := storeField fields "target_store",
             quantity := qty,
             reasoning := strField fields "reasoning" "",
             urgency := strField fields "urgency" "low" }
    | _, _, _ => none
  | _ => none

/-- Coerce the whole entry list: the source appends inside one for loop, so
the first failing entry aborts the loop and the pending exception discards
every entry (Option is the exception monad here). -/
def coerceAll : List Json → Option (List MarketOpportunity)
  | [] => some []
  | e :: rest =>
    match coerceOpp e with
    | none => none
    | some r =>
      match coerceAll rest with
      | none => none
      | some l => some (r :: l)

/-- result.get(opportunities, []) followed by the for loop header: a missing
key iterates an empty list; a non-dict result or a non-list value raises
before any entry is coerced (observably identical to returning no entries,
since the outer handler then returns the empty list). -/
def opportunitiesOf : Json → Option (List Json)
  | .obj fields =>
    match jget fields "opportunities" with
    | some (.arr l) => some l
    | none => some []
    | some _ => none
  | _ => none

/-! ## Oracle Response Parser (SimpleAIAgent.analyze_product, lines 211-253) -/

def fenceJsonMark : List Char := "```json".data

def fenceMark : List Char := "```".data

/-- The code-fence stripping of analyze_product (lines 213-217). -/
def unfence (t : List Char) : List Char :=
  if containsSub fenceJsonMark t then
    ((pySplit fenceMark ((pySplit fenceJsonMark t).getD 1 [])).headD [])
  else if containsSub fenceMark t then
    ((pySplit fenceMark ((pySplit fenceMark t).getD 1 [])).headD [])
  else t

/-- The response-handling slice of SimpleAIAgent.analyze_product, from the
raw oracle reply text to the returned opportunity list. Each none branch is
one of the handlers in the source: json.JSONDecodeError returns [], and the
outer except Exception also returns []. -/
def analyze_product_parse (raw : String) : List MarketOpportunity :=
  match pyJsonLoads (unfence (pyStrip raw.data)) with
  | none => []
  | some j =>
    match opportunitiesOf j with
    | none => []
    | some entries =>
      match coerceAll entries with
      | none => []
      | some opps => opps

/-- Auxiliary observable used to state claims about partially-malformed
payloads: the decoded entry list with each entry coerced individually. -/
def entriesCoerced (raw : String) : Option (List (Option MarketOpportunity)) :=
  ((pyJsonLoads (unfence (pyStrip raw.data))).bind opportunitiesOf).map
    (fun l => l.map coerceOpp)

/-! ## Execution Gate (SimpleAIAgent.execute_opportunity and
GeminiAgent.execute_opportunity) -/

structure BidData where
  productId : String
  sourceStoreId : String
  targetStoreId : String
  quantity : Int
  maxPrice : Rat
  urgency : String
  reasoning : String
deriving DecidableEq

structure BackendResponse where
  status_code : Nat
  text : String
deriving DecidableEq

inductive ExecResult where
  | success (action : String) (data : BidData)
  | failed (error : String)
  | logged (action : String) (opportunity : MarketOpportunity)
  | skipped (reason : String)
deriving DecidableEq

def ExecResult.status : ExecResult → String
  | .success _ _ => "success"
  | .failed _ => "failed"
  | .logged _ _ => "logged"
  | .skipped _ => "skipped"

/-- Kernel-reducible rational multiplication (proved equal to * below);
used to translate the float product potential_profit * 0.8. -/
def ratMul (a b : Rat) : Rat := mkRat (a.num * b.num) (a.den * b.den)

/-- The bid body built for an arbitrage execution (lines 315-323). -/
def mkBidData (pid : String) (o : MarketOpportunity) : BidData :=
  { productId := pid,
    sourceStoreId := o.source_store,
    targetStoreId := o.target_store,
    quantity := o.quantity,
    maxPrice := ratMul o.potential_profit (mkRat 4 5),
    urgency := o.urgency,
    reasoning := o.reasoning }

/-- SimpleAIAgent.execute_opportunity (lines 309-349). The backend argument
models the trading backend; the second component of the result is the list
of bids POSTed to it during the call. -/
def simple_execute_opportunity (backend : BidData → BackendResponse)
    (pid : String) (o : MarketOpportunity) : ExecResult × List BidData :=
  if o.type = "arbitrage" ∧ mkRat 3 5 < o.confidence then
    let bid := mkBidData pid o
    let resp := backend bid
    if resp.status_code = 201 then (.success "bid_created" bid, [bid])
    else (.failed resp.text, [bid])
  else if o.type = "restock" ∧ mkRat 1 2 < o.confidence then
    (.logged "restock_recommendation" o, [])
  else (.skipped "low_confidence", [])

/-- GeminiAgent.execute_opportunity (lines 267-306): same gate with the
orchestrator-path thresholds 0.7 (arbitrage) and 0.6 (restock). -/
def gemini_execute_opportunity (backend : BidData → BackendResponse)
    (pid : String) (o : MarketOpportunity) : ExecResult × List BidData :=
  if o.type = "arbitrage" ∧ mkRat 7 10 < o.confidence then
    let bid := mkBidData pid o
    let resp := backend bid
    if resp.status_code = 201 then (.success "bid_created" bid, [bid])
    else (.failed resp.text, [bid])
  else if o.type = "restock" ∧ mkRat 3 5 < o.confidence then
    (.logged "restock_recommendation" o, [])
  else (.skipped "low_confidence", [])

/-! ## Single-agent runner (AgentRunner.run_agent_for_product, lines 356-390).
The database and marketplace fetches are external collaborators; the runner
is modelled from the oracle reply onward. -/

structure RunReport where
  product_id : String
  opportunities_found : Nat
  opportunities : List MarketOpportunity
  actions_executed : Nat
  executed_actions : List ExecResult
deriving DecidableEq

/-- Lines 374-378: only opportunities with confidence strictly above 0.7
reach the gate at all. -/
def executed_actions_of (backend : BidData → BackendResponse) (pid : String)
    (opps : List MarketOpportunity) : List ExecResult :=
  (opps.filter (fun o => decide (mkRat 7 10 < o.confidence))).map
    (fun o => (simple_execute_opportunity backend pid o).1)

def run_agent_for_product (backend : BidData → BackendResponse)
    (pid : String) (oracleReply : String) : RunReport :=
  let opps := analyze_product_parse oracleReply
  let executed := executed_actions_of backend pid opps
  { product_id := pid,
    opportunities_found := opps.length,
    opportunities := opps,
    actions_executed := executed.length,
    executed_actions := executed }

/-- AgentRunner.run_agents_for_all_products: each product is analysed in
turn with its own oracle reply; no product aborts the loop. -/
def run_agents_for_all (backend : BidData → BackendResponse)
    (oracle : String → String) (pids : List String) : List RunReport :=
  pids.map (fun p => run_agent_for_product backend p (oracle p))

/-! ## Analytical Context Builder
(SimpleAIAgent._prepare_analysis_context, lines 255-307) -/

/-- One inventory row as read from the inventory collection. storeId is
accessed with [] in the source (a missing key would raise); the other
fields are read with .get and its defaults, hence Option. -/
structure InvRow where
  storeId : String
  quantity : Option Int
  reorderPoint : Option Int
  retailPrice : Option Rat
deriving DecidableEq

def invQty (r : InvRow) : Int := r.quantity.getD 0

def invReorder (r : InvRow) : Int := r.reorderPoint.getD 50

def high_stock_stores (rows : List InvRow) : List InvRow :=
  rows.filter (fun r => decide (200 < invQty r))

def low_stock_stores (rows : List InvRow) : List InvRow :=
  rows.filter (fun r => decide (invQty r < invReorder r))

/-- quantity < reorderPoint * 0.5 (an int-float comparison in Python). -/
def critical_low_stores (rows : List InvRow) : List InvRow :=
  rows.filter (fun r =>
    decide (((invQty r : Int) : Rat) < ratMul ((invReorder r : Int) : Rat) (mkRat 1 2)))

structure ArbPair where
  source_store : String
  target_store : String
  source_quantity : Int
  target_quantity : Int
  quantity_diff : Int
  target_reorder_point : Int
  source_retail_price : Rat
  target_retail_price : Rat
deriving DecidableEq

def mkArbPair (avgPrice : Rat) (high low : InvRow) : ArbPair :=
  { source_store := high.storeId,
    target_store := low.storeId,
    source_quantity := invQty high,
    target_quantity := invQty low,
    quantity_diff := invQty high - invQty low,
    target_reorder_point := invReorder low,
    source_retail_price := high.retailPrice.getD avgPrice,
    target_retail_price := low.retailPrice.getD avgPrice }

def flatMapList (f : α → List β) : List α → List β
  | [] => []
  | a :: l => f a ++ flatMapList f l

/-- The nested loops of lines 268-283: outer loop over the critical-low
stores, inner loop over the high-stock stores, appending each qualifying
pair in iteration order. -/
def arbitrage_pairs (avgPrice : Rat) (rows : List InvRow) : List ArbPair :=
  flatMapList (fun low =>
    (high_stock_stores rows).filterMap (fun high =>
      if high.storeId ≠ low.storeId then
        if 100 < invQty high - invQty low then some (mkArbPair avgPrice high low)
        else none
      else none))
    (critical_low_stores rows)

structure AnalysisContext where
  total_units : Int
  stores_count : Nat
  high_stock_count : Nat
  low_stock_count : Nat
  critical_low_count : Nat
  average_stock_per_store : Rat
  inventory_details : List InvRow
  arbitrage_opportunities : List ArbPair
deriving DecidableEq

/-- The structured context document (lines 285-307); the slice of the
returned dict that the claims are about. The [:10] cap keeps the first ten
pairs in iteration order. -/
def prepare_analysis_context (avgPrice : Rat) (rows : List InvRow) : AnalysisContext :=
  let total : Int := (rows.map invQty).sum
  { total_units := total,
    stores_count := rows.length,
    high_stock_count := (high_stock_stores rows).length,
    low_stock_count := (low_stock_stores rows).length,
    critical_low_count := (critical_low_stores rows).length,
    average_stock_per_store := mkRat total (max 1 rows.length),
    inventory_details := rows.take 15,
    arbitrage_opportunities := (arbitrage_pairs avgPrice rows).take 10 }

/-! ## Decision Store (simple_ai_api.py: get_recent_opportunities lines
151-199 and process_opportunity lines 252-335) -/

structure ProcessedOpp where
  opportunity_id : String
  decision : String
  trade_id : Option String
  bid_id : Option String
  processed_at : String
deriving DecidableEq

/-- One stored opportunity inside decision.analysis_result.opportunities.
The store operations only consult the two store fields; the rest of the
JSON entry is carried opaquely. -/
structure StoredOpp where
  source_store : String
  target_store : String
  payload : String
deriving DecidableEq

/-- One document of the agent_decisions collection. oid is the Mongo _id
rendered as str(decision id); opportunities is none when the stored
analysis result has no opportunities field ($exists filters). -/
structure StoredDecision where
  oid : String
  productId : String
  opportunities : Option (List StoredOpp)
  analysis : String
  processed_opportunities : List ProcessedOpp
  timestamp : Nat
deriving DecidableEq

/-- The derived opportunity identifier (line 180):
f-string decision_id-product_id-source_store-target_store-index. -/
def mkOppId (decisionId productId source target : String) (i : Nat) : String :=
  decisionId ++ "-" ++ productId ++ "-" ++ source ++ "-" ++ target ++ "-" ++ toString i

structure OppEntry where
  id : String
  product_id : String
  opportunity : StoredOpp
  timestamp : Nat
  analysis : String
deriving DecidableEq

/-- Python enumerate starting at the given index. -/
def enumFrom : Nat → List α → List (Nat × α)
  | _, [] => []
  | i, a :: l => (i, a) :: enumFrom (i + 1) l

/-- The storeId query filter (lines 176-178). -/
def storeFilterOk : Option String → StoredOpp → Bool
  | none, _ => true
  | some sid, o => decide (o.source_store = sid) || decide (o.target_store = sid)

/-- The per-decision loop body (lines 164-189). -/
def entriesOfDecision (storeId : Option String) (d : StoredDecision) : List OppEntry :=
  let processedIds := d.processed_opportunities.map (fun x => x.opportunity_id)
  (enumFrom 0 (d.opportunities.getD [])).filterMap (fun p =>
    if storeFilterOk storeId p.2 then
      let oppId := mkOppId d.oid d.productId p.2.source_store p.2.target_store p.1
      if oppId ∈ processedIds then none
      else some { id := oppId, product_id := d.productId, opportunity := p.2,
                  timestamp := d.timestamp, analysis := d.analysis }
    else none)

/-- GET /opportunities (lines 151-199). The db list is the collection in
the newest-first order of the sorted query; the find filter keeps documents
whose analysis result has an opportunities field, the query fetches
limit * 2 of them, and the result is truncated to limit after filtering. -/
def get_recent_opportunities (limit : Nat) (storeId : Option String)
    (db : List StoredDecision) : List OppEntry :=
  let decisions := ((db.filter (fun d => d.opportunities.isSome)).take (limit * 2))
  (flatMapList (entriesOfDecision storeId) decisions).take limit

def mkProcessedEntry (oppId dec : String) (tradeId bidId : Option String)
    (processedAt : String) : ProcessedOpp :=
  { opportunity_id := oppId, decision := dec, trade_id := tradeId,
    bid_id := bidId, processed_at := processedAt }

/-- $push of one Processed Opportunity entry onto a document. -/
def pushProcessed (e : ProcessedOpp) (d : StoredDecision) : StoredDecision :=
  { d with processed_opportunities := d.processed_opportunities ++ [e] }

/-- update_one on the _id filter: modify the first matching document,
reporting modified_count. -/
def updateFirstById (did : String) (e : ProcessedOpp) :
    List StoredDecision → List StoredDecision × Nat
  | [] => ([], 0)
  | d :: rest =>
    if d.oid = did then (pushProcessed e d :: rest, 1)
    else
      let r := updateFirstById did e rest
      (d :: r.1, r.2)

/-- update_many on the opportunities-$exists filter: push onto every
document whose analysis result has an opportunities field. -/
def updateAllWithOpps (e : ProcessedOpp) (db : List StoredDecision) :
    List StoredDecision × Nat :=
  (db.map (fun d => if d.opportunities.isSome then pushProcessed e d else d),
   (db.filter (fun d => d.opportunities.isSome)).length)

/-- Line 268: opportunity_id.split(hyphen)[0] if hyphen in opportunity_id
else None. -/
def resolveDecisionId (oppId : String) : Option String :=
  if containsSub ['-'] oppId.data then
    some (String.mk ((pySplit ['-'] oppId.data).headD []))
  else none

/-- bson ObjectId accepts a 24-character hex string; anything else raises,
which the source catches to enter the fallback path. -/
def isValidObjectId (s : String) : Bool :=
  decide (s.length = 24) && s.data.all (fun c =>
    c.isDigit || ('a' ≤ c && c ≤ 'f') || ('A' ≤ c && c ≤ 'F'))

inductive ProcessResult where
  | badRequest (detail : String)
  | ok (opportunity_id decision : String) (trade_id : Option String)
      (processed_at : String) (updated_records : Nat)
deriving DecidableEq

/-- POST /opportunities/.../process (lines 252-335), as a transformation of
the stored collection plus the structured response. -/
def process_opportunity (oppId dec : String) (tradeId bidId : Option String)
    (processedAt : String) (db : List StoredDecision) :
    ProcessResult × List StoredDecision :=
  if dec ≠ "approved" ∧ dec ≠ "rejected" then
    (.badRequest "Decision must be approved or rejected", db)
  else
    let entry := mkProcessedEntry oppId dec tradeId bidId processedAt
    let updated :=
      match resolveDecisionId oppId with
      | some did =>
        if isValidObjectId did then updateFirstById did entry db
        else updateAllWithOpps entry db
      | none => updateAllWithOpps entry db
    (.ok oppId dec tradeId processedAt updated.2, updated.1)

/-! ## Cycle Scheduler (crew_orchestrator.AIAgentOrchestrator, lines
168-228). kick models crew.kickoff for each product id: ok is its result
text, error is a raised exception message. -/

structure ManageResult where
  product_id : String
  status : String
  result : Option String
  error : Option String
deriving DecidableEq

/-- manage_product (lines 168-197): any exception from the crew workflow is
caught and becomes a status-error record for that product alone. -/
def manage_product (kick : String → Except String String) (pid : String) : ManageResult :=
  match kick pid with
  | .ok r => { product_id := pid, status := "completed", result := some r, error := none }
  | .error e => { product_id := pid, status := "error", result := none, error := some e }

/-- The range(0, len, batch_size) slicing of manage_all_products with
batch_size = 5. -/
def chunksGo (n : Nat) : Nat → List α → List (List α)
  | _, [] => []
  | 0, l => [l]
  | fuel + 1, l => l.take n :: chunksGo n fuel (l.drop n)

/-- manage_all_products (lines 199-228) for a given working set: batches of
5 processed in order, results extended batch by batch; asyncio.gather
preserves within-batch input order, so the outcome sequence is batch-major
then within-batch. -/
def manage_all_products (kick : String → Except String String)
    (pids : List String) : List ManageResult :=
  flatMapList (fun batch => batch.map (manage_product kick)) (chunksGo 5 pids.length pids)

/-- First document matching an _id filter, the document update_one acts
on. -/
def findById (did : String) : List StoredDecision → Option StoredDecision
  | [] => none
  | d :: rest => if d.oid = did then some d else findById did rest

/-- Number of documents matching an _id filter. -/
def countById (did : String) (db : List StoredDecision) : Nat :=
  (db.filter (fun d => decide (d.oid = did))).length

/-! ## Helper lemmas -/

theorem ratMul_eq_mul (a b : Rat) : ratMul a b = a * b := by
  unfold ratMul
  rw [Rat.mkRat_eq_div, Int.cast_mul, Nat.cast_mul, ← div_mul_div_comm,
    Rat.num_div_den, Rat.num_div_den]

theorem mem_flatMapList {f : α → List β} {l : List α} {b : β} :
    b ∈ flatMapList f l ↔ ∃ a ∈ l, b ∈ f a := by
  induction l with
  | nil => simp [flatMapList]
  | cons x xs ih => simp [flatMapList, ih]

theorem coerceAll_eq_none {entries : List Json} {e : Json}
    (he : e ∈ entries) (hfail : coerceOpp e = none) : coerceAll entries = none := by
  induction entries with
  | nil => cases he
  | cons x xs ih =>
    rcases List.mem_cons.mp he with he | he
    · subst he
      simp [coerceAll, hfail]
    · unfold coerceAll
      rcases hx : coerceOpp x with _ | r
      · rfl
      · rw [ih he]

/-- Every entry returned by the listing endpoint is generated from a stored
decision: its identifier is the derived function of that decision's id,
product id, the entry's stores and its position, and that identifier is not
among the decision's processed identifiers. -/
theorem mem_get_recent {limit : Nat} {storeId : Option String}
    {db : List StoredDecision} {e : OppEntry}
    (he : e ∈ get_recent_opportunities limit storeId db) :
    ∃ d ∈ db, ∃ p ∈ enumFrom 0 (d.opportunities.getD []),
      e.id = mkOppId d.oid d.productId p.2.source_store p.2.target_store p.1 ∧
      e.id ∉ d.processed_opportunities.map (fun x => x.opportunity_id) := by
  unfold get_recent_opportunities at he
  have he2 := List.mem_of_mem_take he
  rw [mem_flatMapList] at he2
  obtain ⟨d, hd, hed⟩ := he2
  have hd2 : d ∈ db := List.mem_of_mem_filter (List.mem_of_mem_take hd)
  refine ⟨d, hd2, ?_⟩
  unfold entriesOfDecision at hed
  rw [List.mem_filterMap] at hed
  obtain ⟨p, hp, hpe⟩ := hed
  refine ⟨p, hp, ?_⟩
  by_cases h1 : storeFilterOk storeId p.2 = true
  · rw [if_pos h1] at hpe
    by_cases h2 : mkOppId d.oid d.productId p.2.source_store p.2.target_store p.1 ∈
        d.processed_opportunities.map (fun x => x.opportunity_id)
    · rw [if_pos h2] at hpe
      cases hpe
    · rw [if_neg h2] at hpe
      have : e.id = mkOppId d.oid d.productId p.2.source_store p.2.target_store p.1 := by
        cases hpe
        rfl
      exact ⟨this, by rw [this]; exact h2⟩
  · rw [if_neg h1] at hpe
    cases hpe

theorem findById_decomp {did : String} {db : List StoredDecision} {d : StoredDecision}
    (h : findById did db = some d) :
    ∃ pre post, db = pre ++ d :: post ∧ (∀ x ∈ pre, ¬ x.oid = did) ∧ d.oid = did := by
  induction db with
  | nil => cases h
  | cons x xs ih =>
    unfold findById at h
    by_cases hx : x.oid = did
    · rw [if_pos hx] at h
      cases h
      refine ⟨[], xs, rfl, ?_, hx⟩
      intro y hy
      exact absurd hy (List.not_mem_nil y)
    · rw [if_neg hx] at h
      obtain ⟨pre, post, hdb, hpre, hd⟩ := ih h
      refine ⟨x :: pre, post, by rw [hdb]; rfl, ?_, hd⟩
      intro y hy
      rcases List.mem_cons.mp hy with hy | hy
      · subst hy; exact hx
      · exact hpre y hy

theorem updateFirstById_append {did : String} {e : ProcessedOpp}
    {pre post : List StoredDecision} {d : StoredDecision}
    (hpre : ∀ x ∈ pre, ¬ x.oid = did) (hd : d.oid = did) :
    updateFirstById did e (pre ++ d :: post) = (pre ++ pushProcessed e d :: post, 1) := by
  induction pre with
  | nil => simp [updateFirstById, hd]
  | cons x xs ih =>
    have hx : ¬ x.oid = did := hpre x (List.mem_cons_self x xs)
    have ih2 := ih (fun y hy => hpre y (List.mem_cons_of_mem x hy))
    simp only [List.cons_append, updateFirstById, if_neg hx, List.append_eq, ih2]

theorem findById_append {did : String} {pre post : List StoredDecision} {d : StoredDecision}
    (hpre : ∀ x ∈ pre, ¬ x.oid = did) (hd : d.oid = did) :
    findById did (pre ++ d :: post) = some d := by
  induction pre with
  | nil => simp [findById, hd]
  | cons x xs ih =>
    have hx : ¬ x.oid = did := hpre x (List.mem_cons_self x xs)
    have ih2 := ih (fun y hy => hpre y (List.mem_cons_of_mem x hy))
    simp only [List.cons_append, findById, if_neg hx, List.append_eq, ih2]

theorem countById_append (did : String) (l1 l2 : List StoredDecision) :
    countById did (l1 ++ l2) = countById did l1 + countById did l2 := by
  unfold countById
  rw [List.filter_append, List.length_append]

theorem countById_eq_zero {did : String} {l : List StoredDecision}
    (h : countById did l = 0) : ∀ x ∈ l, ¬ x.oid = did := by
  unfold countById at h
  rw [List.length_eq_zero, List.filter_eq_nil_iff] at h
  intro x hx
  have := h x hx
  simpa using this

theorem simple_execute_arbitrage (backend : BidData → BackendResponse)
    (pid : String) (o : MarketOpportunity)
    (ht : o.type = "arbitrage") (hc : mkRat 3 5 < o.confidence) :
    simple_execute_opportunity backend pid o =
      (if (backend (mkBidData pid o)).status_code = 201 then
        (.success "bid_created" (mkBidData pid o), [mkBidData pid o])
      else (.failed (backend (mkBidData pid o)).text, [mkBidData pid o])) := by
  unfold simple_execute_opportunity
  rw [if_pos ⟨ht, hc⟩]

theorem gemini_execute_arbitrage (backend : BidData → BackendResponse)
    (pid : String) (o : MarketOpportunity)
    (ht : o.type = "arbitrage") (hc : mkRat 7 10 < o.confidence) :
    gemini_execute_opportunity backend pid o =
      (if (backend (mkBidData pid o)).status_code = 201 then
        (.success "bid_created" (mkBidData pid o), [mkBidData pid o])
      else (.failed (backend (mkBidData pid o)).text, [mkBidData pid o])) := by
  unfold gemini_execute_opportunity
  rw [if_pos ⟨ht, hc⟩]

/-- C1 counterexample: an arbitrage Opportunity Record with empty
source_store and target_store and confidence 0.9 is submitted to the
trading backend and reported executed by the single-agent gate, so the
claimed invariant does not hold in the code. -/
theorem c1_gate_counterexample :
    (let backend : BidData → BackendResponse := fun _ => ⟨201, "created"⟩
     let o : MarketOpportunity :=
       ⟨"arbitrage", mkRat 9 10, mkRat 100 1, "", "", 10, "imbalance", "high"⟩
     o.source_store = "" ∧ o.target_store = "" ∧
     (simple_execute_opportunity backend "P1" o).1.status = "success" ∧
     (simple_execute_opportunity backend "P1" o).2 = [mkBidData "P1" o] ∧
     (mkBidData "P1" o).sourceStoreId = "" ∧ (mkBidData "P1" o).targetStoreId = "") := by
  decide

/-- C1 amended: the execution gate submits a bid for every arbitrage
opportunity whose confidence exceeds the path threshold (0.6 single-agent,
0.7 gemini-agent), copying source_store and target_store into the bid
verbatim and without validating that they are non-empty or distinct; the
outcome is then success or failed depending only on the backend reply. -/
theorem c1_gate_amended (backend gbackend : BidData → BackendResponse)
    (pid : String) (o : MarketOpportunity)
    (ht : o.type = "arbitrage") (hc : mkRat 3 5 < o.confidence) :
    (simple_execute_opportunity backend pid o).2 = [mkBidData pid o] ∧
    (mkBidData pid o).sourceStoreId = o.source_store ∧
    (mkBidData pid o).targetStoreId = o.target_store ∧
    ((simple_execute_opportunity backend pid o).1.status = "success" ∨
      (simple_execute_opportunity backend pid o).1.status = "failed") ∧
    (mkRat 7 10 < o.confidence →
      (gemini_execute_opportunity gbackend pid o).2 = [mkBidData pid o]) := by
  rw [simple_execute_arbitrage backend pid o ht hc]
  refine ⟨?_, rfl, rfl, ?_, ?_⟩
  · by_cases hr : (backend (mkBidData pid o)).status_code = 201
    · rw [if_pos hr]
    · rw [if_neg hr]
  · by_cases hr : (backend (mkBidData pid o)).status_code = 201
    · rw [if_pos hr]; left; rfl
    · rw [if_neg hr]; right; rfl
  · intro h7
    rw [gemini_execute_arbitrage gbackend pid o ht h7]
    by_cases hr : (gbackend (mkBidData pid o)).status_code = 201
    · rw [if_pos hr]
    · rw [if_neg hr]

/-- C1 amended witness at a concrete empty-store opportunity. -/
theorem c1_gate_amended_witness :
    (let b : BidData → BackendResponse := fun _ => ⟨201, "created"⟩
     let o : MarketOpportunity :=
       ⟨"arbitrage", mkRat 4 5, mkRat 100 1, "", "", 10, "r", "high"⟩
     (simple_execute_opportunity b "P1" o).2 = [mkBidData "P1" o] ∧
     (mkBidData "P1" o).sourceStoreId = o.source_store ∧
     (mkBidData "P1" o).targetStoreId = o.target_store ∧
     ((simple_execute_opportunity b "P1" o).1.status = "success" ∨
       (simple_execute_opportunity b "P1" o).1.status = "failed") ∧
     (mkRat 7 10 < o.confidence →
       (gemini_execute_opportunity b "P1" o).2 = [mkBidData "P1" o])) :=
  c1_gate_amended (fun _ => ⟨201, "created"⟩) (fun _ => ⟨201, "created"⟩) "P1"
    ⟨"arbitrage", mkRat 4 5, mkRat 100 1, "", "", 10, "r", "high"⟩ rfl (by decide)

/-- C5: for a working set A, B, C where analyzing B raises, the cycle
yields exactly three per-product outcomes in order, B marked error with its
exception message, A and C carrying their own outcomes; nothing aborts. -/
theorem c5_scheduler_isolation (kick : String → Except String String)
    (a b c e : String) (hb : kick b = .error e) :
    manage_all_products kick [a, b, c] =
      [manage_product kick a,
       { product_id := b, status := "error", result := none, error := some e },
       manage_product kick c] ∧
    (manage_all_products kick [a, b, c]).length = 3 := by
  have h1 : manage_all_products kick [a, b, c] =
      [manage_product kick a,
       { product_id := b, status := "error", result := none, error := some e },
       manage_product kick c] := by
    simp [manage_all_products, chunksGo, flatMapList, manage_product, hb]
  exact ⟨h1, by rw [h1]; rfl⟩

/-- C5 witness with a concrete failing middle product. -/
theorem c5_scheduler_isolation_witness :
    (let kick : String → Except String String :=
       fun p => if p = "B" then .error "boom" else .ok "done"
     manage_all_products kick ["A", "B", "C"] =
       [manage_product kick "A",
        { product_id := "B", status := "error", result := none, error := some "boom" },
        manage_product kick "C"] ∧
     (manage_all_products kick ["A", "B", "C"]).length = 3) :=
  c5_scheduler_isolation
    (fun p => if p = "B" then .error "boom" else .ok "done") "A" "B" "C" "boom" rfl

/-- C8: an oracle reply whose body fails structural JSON parsing after
fence stripping yields zero opportunities for that product, no executed
action and no exception, and a full cycle still produces one outcome per
product. -/
theorem c8_malformed_reply (backend : BidData → BackendResponse)
    (pid raw : String)
    (h : (pyJsonLoads (unfence (pyStrip raw.data))).isNone = true) :
    analyze_product_parse raw = [] ∧
    (run_agent_for_product backend pid raw).opportunities_found = 0 ∧
    (run_agent_for_product backend pid raw).executed_actions = [] ∧
    ∀ oracle pids,
      (run_agents_for_all backend oracle pids).length = pids.length := by
  have hp : pyJsonLoads (unfence (pyStrip raw.data)) = none :=
    Option.isNone_iff_eq_none.mp h
  have ha : analyze_product_parse raw = [] := by
    unfold analyze_product_parse
    rw [hp]
  refine ⟨ha, ?_, ?_, ?_⟩
  · simp [run_agent_for_product, executed_actions_of, ha]
  · simp [run_agent_for_product, executed_actions_of, ha]
  · intro oracle pids
    simp [run_agents_for_all]

/-- C8 witness on concrete garbage text. -/
theorem c8_malformed_reply_witness :
    (let raw := "the oracle returned garbage rather than a payload"
     let b : BidData → BackendResponse := fun _ => ⟨201, "created"⟩
     analyze_product_parse raw = [] ∧
     (run_agent_for_product b "P1" raw).opportunities_found = 0 ∧
     (run_agent_for_product b "P1" raw).executed_actions = [] ∧
     (run_agents_for_all b (fun _ => raw) ["P1", "P2"]).length = 2) := by
  have h := c8_malformed_reply (fun _ => ⟨201, "created"⟩) "P1"
    "the oracle returned garbage rather than a payload" (by decide)
  exact ⟨h.1, h.2.1, h.2.2.1, h.2.2.2 (fun _ => "the oracle returned garbage rather than a payload") ["P1", "P2"]⟩

set_option maxRecDepth 100000 in
/-- C9: a fenced oracle reply with one restock opportunity of confidence
0.55 parses to exactly one Opportunity Record with that confidence, and the
single-agent gate classifies it as logged (no backend call), not skipped,
since 0.55 exceeds the 0.5 single-agent restock threshold. -/
theorem c9_fenced_restock_logged :
    (let raw := "```json\n\x7b\"opportunities\": [\x7b\"type\": \"restock\", \"confidence\": 0.55, \"potential_profit\": 40.5, \"source_store\": \"store_3\", \"target_store\": \"store_1\", \"quantity\": 25, \"reasoning\": \"below reorder point\", \"urgency\": \"high\"\x7d]\x7d\n```"
     let backend : BidData → BackendResponse := fun _ => ⟨201, "created"⟩
     let rec0 : MarketOpportunity :=
       ⟨"restock", mkRat 11 20, mkRat 81 2, "store_3", "store_1", 25,
        "below reorder point", "high"⟩
     analyze_product_parse raw = [rec0] ∧
     rec0.confidence = mkRat 11 20 ∧
     mkRat 1 2 < rec0.confidence ∧
     (simple_execute_opportunity backend "P1" rec0).1 =
       .logged "restock_recommendation" rec0 ∧
     (simple_execute_opportunity backend "P1" rec0).1.status = "logged" ∧
     ¬ (simple_execute_opportunity backend "P1" rec0).1.status = "skipped" ∧
     (simple_execute_opportunity backend "P1" rec0).2 = []) := by
  decide

/-- C10: the runner hands to the execution gate exactly the opportunities
with confidence strictly above 0.7; an opportunity with confidence at most
0.7 is not among them, so the cycle records no executed or logged action
for it, even for a restock in (0.5, 0.7] that the gate alone would log. -/
theorem c10_runner_threshold (backend : BidData → BackendResponse)
    (pid raw : String) :
    (run_agent_for_product backend pid raw).executed_actions =
      ((analyze_product_parse raw).filter
        (fun o => decide (mkRat 7 10 < o.confidence))).map
        (fun o => (simple_execute_opportunity backend pid o).1) ∧
    (∀ o ∈ analyze_product_parse raw, o.confidence ≤ mkRat 7 10 →
      (o ∉ (analyze_product_parse raw).filter
          (fun o => decide (mkRat 7 10 < o.confidence))) ∧
      (o.type = "restock" → mkRat 1 2 < o.confidence →
        (simple_execute_opportunity backend pid o).1.status = "logged")) ∧
    ((∀ o ∈ analyze_product_parse raw, o.confidence ≤ mkRat 7 10) →
      (run_agent_for_product backend pid raw).executed_actions = [] ∧
      (run_agent_for_product backend pid raw).actions_executed = 0) := by
  have hlog : ∀ o : MarketOpportunity, o.type = "restock" → mkRat 1 2 < o.confidence →
      (simple_execute_opportunity backend pid o).1.status = "logged" := by
    intro o htype hconf
    unfold simple_execute_opportunity
    have hnot : ¬ (o.type = "arbitrage" ∧ mkRat 3 5 < o.confidence) := by
      intro hcontra
      rw [htype] at hcontra
      exact absurd hcontra.1 (by decide)
    rw [if_neg hnot, if_pos ⟨htype, hconf⟩]
    rfl
  refine ⟨rfl, ?_, ?_⟩
  · intro o ho hle
    refine ⟨?_, hlog o⟩
    intro hmem
    have hgt := (List.mem_filter.mp hmem).2
    simp only [decide_eq_true_eq] at hgt
    exact absurd hgt (not_lt.mpr hle)
  · intro h
    have hf : (analyze_product_parse raw).filter
        (fun o => decide (mkRat 7 10 < o.confidence)) = [] := by
      rw [List.filter_eq_nil_iff]
      intro o ho
      simp only [decide_eq_true_eq]
      exact not_lt.mpr (h o ho)
    have he : executed_actions_of backend pid (analyze_product_parse raw) = [] := by
      unfold executed_actions_of
      rw [hf]
      rfl
    exact ⟨by simp [run_agent_for_product, he],
      by simp [run_agent_for_product, he]⟩

/-- C10 witness: a parsed restock opportunity with confidence 0.6 reaches
no action in the runner although the gate alone would log it. -/
theorem c10_runner_threshold_witness :
    (let raw := "\x7b\"opportunities\": [\x7b\"type\": \"restock\", \"confidence\": 0.6\x7d]\x7d"
     let b : BidData → BackendResponse := fun _ => ⟨201, "created"⟩
     let o : MarketOpportunity := ⟨"restock", mkRat 3 5, mkRat 0 1, "", "", 0, "", "low"⟩
     (o ∉ (analyze_product_parse raw).filter
        (fun x => decide (mkRat 7 10 < x.confidence))) ∧
     (simple_execute_opportunity b "P1" o).1.status = "logged" ∧
     (run_agent_for_product b "P1" raw).executed_actions = [] ∧
     (run_agent_for_product b "P1" raw).actions_executed = 0) := by
  have h := c10_runner_threshold (fun _ => ⟨201, "created"⟩) "P1"
    "\x7b\"opportunities\": [\x7b\"type\": \"restock\", \"confidence\": 0.6\x7d]\x7d"
  have h2 := h.2.1 ⟨"restock", mkRat 3 5, mkRat 0 1, "", "", 0, "", "low"⟩
    (by decide) (by decide)
  have h3 := h.2.2 (by decide)
  exact ⟨h2.1, h2.2 rfl (by decide), h3.1, h3.2⟩

/-- C2 counterexample: with one high-stock store and eleven critical-low
stores, the eleventh qualifying pair has the largest quantity difference
(400) but is dropped by the [:10] cap, while ten pairs of difference 350
are kept: the cap keeps the first ten pairs in iteration order, not the ten
with the largest difference. -/
theorem c2_context_pairs_counterexample :
    (let rows : List InvRow :=
       [⟨"H", some 400, some 50, none⟩,
        ⟨"L1", some 50, some 200, none⟩, ⟨"L2", some 50, some 200, none⟩,
        ⟨"L3", some 50, some 200, none⟩, ⟨"L4", some 50, some 200, none⟩,
        ⟨"L5", some 50, some 200, none⟩, ⟨"L6", some 50, some 200, none⟩,
        ⟨"L7", some 50, some 200, none⟩, ⟨"L8", some 50, some 200, none⟩,
        ⟨"L9", some 50, some 200, none⟩, ⟨"L10", some 50, some 200, none⟩,
        ⟨"L11", some 0, some 200, none⟩]
     let pBig := mkArbPair (mkRat 0 1) ⟨"H", some 400, some 50, none⟩
       ⟨"L11", some 0, some 200, none⟩
     pBig.quantity_diff = 400 ∧
     pBig ∈ arbitrage_pairs (mkRat 0 1) rows ∧
     pBig ∉ (prepare_analysis_context (mkRat 0 1) rows).arbitrage_opportunities ∧
     (prepare_analysis_context (mkRat 0 1) rows).arbitrage_opportunities.length = 10 ∧
     ∀ q ∈ (prepare_analysis_context (mkRat 0 1) rows).arbitrage_opportunities,
       q.quantity_diff < pBig.quantity_diff) := by
  decide

/-- C2 amended: the candidate pair list is exactly the pairs
(high-stock source, critical-low target) over distinct store ids with
quantity difference above 100, in iteration order (targets outer, sources
inner), capped to the FIRST ten such pairs rather than the ten largest by
difference; the S1/S2 scenario holds with quantity_diff 290. -/
theorem c2_context_pairs_amended (avg : Rat) (rows : List InvRow) (p : ArbPair) :
    ((prepare_analysis_context avg rows).arbitrage_opportunities =
      (arbitrage_pairs avg rows).take 10) ∧
    (p ∈ arbitrage_pairs avg rows ↔
      ∃ high ∈ rows, ∃ low ∈ rows,
        200 < invQty high ∧
        (((invQty low : Int) : Rat) < ratMul ((invReorder low : Int) : Rat) (mkRat 1 2)) ∧
        high.storeId ≠ low.storeId ∧
        100 < invQty high - invQty low ∧
        p = mkArbPair avg high low) ∧
    ((prepare_analysis_context avg
        [⟨"S1", some 300, some 50, none⟩, ⟨"S2", some 10, some 50, none⟩]).arbitrage_opportunities
      = [{ source_store := "S1", target_store := "S2", source_quantity := 300,
           target_quantity := 10, quantity_diff := 290, target_reorder_point := 50,
           source_retail_price := avg, target_retail_price := avg }]) := by
  refine ⟨rfl, ?_, rfl⟩
  unfold arbitrage_pairs
  rw [mem_flatMapList]
  constructor
  · rintro ⟨low, hlow, hp⟩
    rw [List.mem_filterMap] at hp
    obtain ⟨high, hhigh, hph⟩ := hp
    have hlow2 := List.mem_filter.mp hlow
    have hhigh2 := List.mem_filter.mp hhigh
    by_cases h1 : high.storeId ≠ low.storeId
    · rw [if_pos h1] at hph
      by_cases h2 : 100 < invQty high - invQty low
      · rw [if_pos h2] at hph
        cases hph
        exact ⟨high, hhigh2.1, low, hlow2.1,
          by simpa using hhigh2.2, by simpa using hlow2.2, h1, h2, rfl⟩
      · rw [if_neg h2] at hph
        cases hph
    · rw [if_neg h1] at hph
      cases hph
  · rintro ⟨high, hhigh, low, hlow, hq, hc, hne, hdiff, hpe⟩
    refine ⟨low, List.mem_filter.mpr ⟨hlow, by simpa using hc⟩, ?_⟩
    rw [List.mem_filterMap]
    refine ⟨high, List.mem_filter.mpr ⟨hhigh, by simpa using hq⟩, ?_⟩
    rw [if_pos hne, if_pos hdiff, hpe]

set_option maxRecDepth 100000 in
/-- C3 counterexample: a structurally valid payload whose second entry has
a non-numeric confidence yields NO opportunities at all: the well-formed
first entry is discarded along with the malformed one (the coercion error
escapes to the outer handler, which drops the whole batch), while the same
well-formed entry alone would be returned. -/
theorem c3_batch_drop_counterexample :
    (let rawBad := "\x7b\"opportunities\": [\x7b\"type\": \"restock\", \"confidence\": 0.9, \"potential_profit\": 10, \"source_store\": \"A\", \"target_store\": \"B\", \"quantity\": 1, \"reasoning\": \"g\", \"urgency\": \"low\"\x7d, \x7b\"type\": \"restock\", \"confidence\": \"very high\"\x7d]\x7d"
     let rawGood := "\x7b\"opportunities\": [\x7b\"type\": \"restock\", \"confidence\": 0.9, \"potential_profit\": 10, \"source_store\": \"A\", \"target_store\": \"B\", \"quantity\": 1, \"reasoning\": \"g\", \"urgency\": \"low\"\x7d]\x7d"
     let good : MarketOpportunity := ⟨"restock", mkRat 9 10, mkRat 10 1, "A", "B", 1, "g", "low"⟩
     entriesCoerced rawBad = some [some good, none] ∧
     analyze_product_parse rawBad = [] ∧
     analyze_product_parse rawGood = [good]) := by
  decide

/-- C3 amended: an entry that fails numeric coercion causes the ENTIRE
batch to be discarded — the analysis call catches the error at its outer
scope and returns zero opportunities (it does not raise), instead of
dropping only the malformed entry. -/
theorem c3_batch_drop_amended (raw : String) (l : List (Option MarketOpportunity))
    (h1 : entriesCoerced raw = some l) (h2 : none ∈ l) :
    analyze_product_parse raw = [] := by
  unfold entriesCoerced at h1
  unfold analyze_product_parse
  cases hp : pyJsonLoads (unfence (pyStrip raw.data)) with
  | none => rfl
  | some j =>
    rw [hp] at h1
    show (match opportunitiesOf j with
      | none => ([] : List MarketOpportunity)
      | some entries =>
        match coerceAll entries with
        | none => []
        | some opps => opps) = []
    simp only [Option.some_bind] at h1
    cases ho : opportunitiesOf j with
    | none => rfl
    | some entries =>
      rw [ho] at h1
      have h3 : List.map coerceOpp entries = l := by simpa using h1
      rw [← h3, List.mem_map] at h2
      obtain ⟨e, he, hfail⟩ := h2
      show (match coerceAll entries with
        | none => ([] : List MarketOpportunity)
        | some opps => opps) = []
      rw [coerceAll_eq_none he hfail]

set_option maxRecDepth 100000 in
/-- C3 amended witness: the mixed payload concretely coerces to one good
entry and one failure, and the analysis returns the empty list. -/
theorem c3_batch_drop_amended_witness :
    analyze_product_parse "\x7b\"opportunities\": [\x7b\"type\": \"restock\", \"confidence\": 0.9, \"potential_profit\": 10, \"source_store\": \"A\", \"target_store\": \"B\", \"quantity\": 1, \"reasoning\": \"g\", \"urgency\": \"low\"\x7d, \x7b\"type\": \"restock\", \"confidence\": \"very high\"\x7d]\x7d" = [] :=
  c3_batch_drop_amended _
    [some ⟨"restock", mkRat 9 10, mkRat 10 1, "A", "B", 1, "g", "low"⟩, none]
    (by decide) (by decide)

/-- C4 counterexample: with a single stored Decision whose only opportunity
is already processed (so it exposes no unprocessed opportunity, as the
empty listing shows), a mark-processed call with an unresolvable identifier
still appends the audit entry to that Decision and reports 1 affected
record; the fallback is not restricted to Decisions that still expose
unprocessed opportunities. -/
theorem c4_fallback_counterexample :
    (let d0 : StoredDecision :=
       ⟨"aaaaaaaaaaaaaaaaaaaaaaaa", "P1", some [⟨"S1", "S2", "x"⟩], "an",
        [⟨"aaaaaaaaaaaaaaaaaaaaaaaa-P1-S1-S2-0", "approved", none, none, "t0"⟩], 0⟩
     let db0 := [d0]
     get_recent_opportunities 20 none db0 = [] ∧
     (process_opportunity "garbage" "approved" none none "t1" db0).1 =
       .ok "garbage" "approved" none "t1" 1 ∧
     (process_opportunity "garbage" "approved" none none "t1" db0).2 =
       [pushProcessed (mkProcessedEntry "garbage" "approved" none none "t1") d0]) := by
  decide

/-- C4 amended: when the identifier does not resolve (no embedded
decision-id component, or one that is not a valid ObjectId), the fallback
appends the Processed Opportunity entry to EVERY stored Decision whose
analysis result has an opportunities field — regardless of whether any
unprocessed opportunity remains — and the response reports the count of
Decision records affected. -/
theorem c4_fallback_amended (oppId dec : String) (tid bid : Option String)
    (t : String) (db : List StoredDecision)
    (hdec : dec = "approved" ∨ dec = "rejected")
    (hmal : ((resolveDecisionId oppId).map isValidObjectId).getD false = false) :
    process_opportunity oppId dec tid bid t db =
      (.ok oppId dec tid t ((db.filter (fun d => d.opportunities.isSome)).length),
       db.map (fun d => if d.opportunities.isSome then
         pushProcessed (mkProcessedEntry oppId dec tid bid t) d else d)) := by
  have hne : ¬ (dec ≠ "approved" ∧ dec ≠ "rejected") := by
    rcases hdec with h | h <;> simp [h]
  unfold process_opportunity
  rw [if_neg hne]
  cases hr : resolveDecisionId oppId with
  | none => rfl
  | some did =>
    rw [hr] at hmal
    have hv : isValidObjectId did = false := by simpa using hmal
    simp only [hv, Bool.false_eq_true, if_false]
    rfl

/-- C4 amended witness: a malformed identifier updates both stored
Decisions that have an opportunities field and skips the one without. -/
theorem c4_fallback_amended_witness :
    (let dA : StoredDecision := ⟨"a0a0a0a0a0a0a0a0a0a0a0a0", "P1", some [⟨"S1", "S2", "x"⟩], "a", [], 3⟩
     let dB : StoredDecision := ⟨"b1b1b1b1b1b1b1b1b1b1b1b1", "P2", none, "b", [], 2⟩
     let dC : StoredDecision := ⟨"c2c2c2c2c2c2c2c2c2c2c2c2", "P3", some [], "c", [], 1⟩
     process_opportunity "zzz-qqq" "rejected" none none "t9" [dA, dB, dC] =
       (.ok "zzz-qqq" "rejected" none "t9" 2,
        [pushProcessed (mkProcessedEntry "zzz-qqq" "rejected" none none "t9") dA, dB,
         pushProcessed (mkProcessedEntry "zzz-qqq" "rejected" none none "t9") dC])) :=
  c4_fallback_amended "zzz-qqq" "rejected" none none "t9" _ (Or.inr rfl) (by decide)

/-- C6: every identifier returned by the listing endpoint is the
deterministic function mkOppId of the owning decision id, its product id,
the entry source and target stores and the position in the list, and a
repeated read of the unchanged store returns the identical result. -/
theorem c6_stable_identifiers (db : List StoredDecision) (limit : Nat)
    (storeId : Option String) (e : OppEntry)
    (he : e ∈ get_recent_opportunities limit storeId db) :
    get_recent_opportunities limit storeId db = get_recent_opportunities limit storeId db ∧
    ∃ d ∈ db, ∃ p ∈ enumFrom 0 (d.opportunities.getD []),
      e.id = mkOppId d.oid d.productId p.2.source_store p.2.target_store p.1 := by
  refine ⟨rfl, ?_⟩
  obtain ⟨d, hd, p, hp, hid, _⟩ := mem_get_recent he
  exact ⟨d, hd, p, hp, hid⟩

/-- C6 witness on a one-decision store. -/
theorem c6_stable_identifiers_witness :
    (let db0 : List StoredDecision := [⟨"d1", "P1", some [⟨"S1", "S2", "x"⟩], "an", [], 5⟩]
     let e0 : OppEntry := ⟨"d1-P1-S1-S2-0", "P1", ⟨"S1", "S2", "x"⟩, 5, "an"⟩
     get_recent_opportunities 20 none db0 = get_recent_opportunities 20 none db0 ∧
     ∃ d ∈ db0, ∃ p ∈ enumFrom 0 (d.opportunities.getD []),
       e0.id = mkOppId d.oid d.productId p.2.source_store p.2.target_store p.1) :=
  c6_stable_identifiers [⟨"d1", "P1", some [⟨"S1", "S2", "x"⟩], "an", [], 5⟩] 20 none
    ⟨"d1-P1-S1-S2-0", "P1", ⟨"S1", "S2", "x"⟩, 5, "an"⟩ (by decide)

theorem countById_eq_zero_of {did : String} {l : List StoredDecision}
    (h : ∀ x ∈ l, ¬ x.oid = did) : countById did l = 0 := by
  unfold countById
  rw [List.length_eq_zero, List.filter_eq_nil_iff]
  intro x hx
  simpa using h x hx

theorem countById_cons_of_oid {did : String} {d : StoredDecision}
    {l : List StoredDecision} (hd : d.oid = did) :
    countById did (d :: l) = countById did l + 1 := by
  unfold countById
  simp [List.filter_cons, hd]

theorem process_resolved_step (oppId dec : String) (tid bid : Option String)
    (t did : String) (pre post : List StoredDecision) (dmid : StoredDecision)
    (hne : ¬ (dec ≠ "approved" ∧ dec ≠ "rejected"))
    (hres : resolveDecisionId oppId = some did)
    (hvalid : isValidObjectId did = true)
    (hpre : ∀ x ∈ pre, ¬ x.oid = did)
    (hmid : dmid.oid = did) :
    (process_opportunity oppId dec tid bid t (pre ++ dmid :: post)).2 =
      pre ++ pushProcessed (mkProcessedEntry oppId dec tid bid t) dmid :: post := by
  unfold process_opportunity
  rw [if_neg hne, hres]
  show (if isValidObjectId did = true then
      updateFirstById did (mkProcessedEntry oppId dec tid bid t) (pre ++ dmid :: post)
    else updateAllWithOpps (mkProcessedEntry oppId dec tid bid t) (pre ++ dmid :: post)).1 = _
  rw [if_pos hvalid, updateFirstById_append hpre hmid]

/-- C7: marking the same resolvable opportunity id processed twice with the
same decision value appends two audit entries to the owning Decision, and
the opportunity is excluded from every listing already after the first
call. -/
theorem c7_mark_processed_twice
    (db : List StoredDecision) (did oppId dec : String) (d : StoredDecision)
    (tid bid : Option String) (t1 t2 : String) (i : Nat) (o : StoredOpp)
    (hdec : dec = "approved" ∨ dec = "rejected")
    (hres : resolveDecisionId oppId = some did)
    (hvalid : isValidObjectId did = true)
    (hfound : findById did db = some d)
    (hcount : countById did db = 1)
    (hopp : (i, o) ∈ enumFrom 0 (d.opportunities.getD []))
    (hid : oppId = mkOppId d.oid d.productId o.source_store o.target_store i)
    (hgen : ∀ d2 ∈ db, ¬ d2.oid = did →
      ∀ p ∈ enumFrom 0 (d2.opportunities.getD []),
        ¬ mkOppId d2.oid d2.productId p.2.source_store p.2.target_store p.1 = oppId) :
    findById did (process_opportunity oppId dec tid bid t2
        (process_opportunity oppId dec tid bid t1 db).2).2 =
      some (pushProcessed (mkProcessedEntry oppId dec tid bid t2)
        (pushProcessed (mkProcessedEntry oppId dec tid bid t1) d)) ∧
    (pushProcessed (mkProcessedEntry oppId dec tid bid t2)
        (pushProcessed (mkProcessedEntry oppId dec tid bid t1) d)).processed_opportunities =
      d.processed_opportunities ++
        [mkProcessedEntry oppId dec tid bid t1, mkProcessedEntry oppId dec tid bid t2] ∧
    ∀ limit storeId e3,
      e3 ∈ get_recent_opportunities limit storeId
        (process_opportunity oppId dec tid bid t1 db).2 →
      ¬ e3.id = oppId := by
  obtain ⟨pre, post, hdb, hpre, hoid⟩ := findById_decomp hfound
  have hne : ¬ (dec ≠ "approved" ∧ dec ≠ "rejected") := by
    rcases hdec with h | h <;> simp [h]
  have h1 : (process_opportunity oppId dec tid bid t1 db).2 =
      pre ++ pushProcessed (mkProcessedEntry oppId dec tid bid t1) d :: post := by
    rw [hdb]
    exact process_resolved_step oppId dec tid bid t1 did pre post d hne hres hvalid hpre hoid
  have hd1oid : (pushProcessed (mkProcessedEntry oppId dec tid bid t1) d).oid = did := hoid
  have h2 : (process_opportunity oppId dec tid bid t2
      (process_opportunity oppId dec tid bid t1 db).2).2 =
      pre ++ pushProcessed (mkProcessedEntry oppId dec tid bid t2)
        (pushProcessed (mkProcessedEntry oppId dec tid bid t1) d) :: post := by
    rw [h1]
    exact process_resolved_step oppId dec tid bid t2 did pre post _ hne hres hvalid hpre hd1oid
  refine ⟨?_, ?_, ?_⟩
  · rw [h2]
    exact findById_append hpre hoid
  · simp [pushProcessed, List.append_assoc]
  · have hpost : ∀ x ∈ post, ¬ x.oid = did := by
      have hc := hcount
      rw [hdb, countById_append, countById_cons_of_oid hoid,
        countById_eq_zero_of hpre] at hc
      have hz : countById did post = 0 := by omega
      exact countById_eq_zero hz
    intro limit storeId e3 he3 heq
    rw [h1] at he3
    obtain ⟨d2, hd2, p, hp, hid3, hnotin⟩ := mem_get_recent he3
    rcases List.mem_append.mp hd2 with hmem | hmem
    · have hin : d2 ∈ db := by
        rw [hdb]
        exact List.mem_append.mpr (Or.inl hmem)
      exact hgen d2 hin (hpre d2 hmem) p hp (by rw [← hid3]; exact heq)
    · rcases List.mem_cons.mp hmem with hmem2 | hmem2
      · apply hnotin
        rw [heq, hmem2]
        simp only [pushProcessed, List.map_append]
        refine List.mem_append.mpr (Or.inr ?_)
        simp [mkProcessedEntry]
      · have hin : d2 ∈ db := by
          rw [hdb]
          exact List.mem_append.mpr (Or.inr (List.mem_cons_of_mem d hmem2))
        exact hgen d2 hin (hpost d2 hmem2) p hp (by rw [← hid3]; exact heq)

/-- C7 witness: a concrete one-decision store; after the first call the
listing is empty, after the second the owning Decision carries both audit
entries. -/
theorem c7_mark_processed_twice_witness :
    (let d7 : StoredDecision :=
       ⟨"abcdefabcdefabcdefabcdef", "P7", some [⟨"S1", "S2", "x"⟩], "a", [], 9⟩
     let oppId := "abcdefabcdefabcdefabcdef-P7-S1-S2-0"
     let e1 := mkProcessedEntry oppId "approved" none none "t1"
     let e2 := mkProcessedEntry oppId "approved" none none "t2"
     findById "abcdefabcdefabcdefabcdef"
         (process_opportunity oppId "approved" none none "t2"
           (process_opportunity oppId "approved" none none "t1" [d7]).2).2 =
       some (pushProcessed e2 (pushProcessed e1 d7)) ∧
     (pushProcessed e2 (pushProcessed e1 d7)).processed_opportunities =
       d7.processed_opportunities ++ [e1, e2] ∧
     get_recent_opportunities 20 none
       (process_opportunity oppId "approved" none none "t1" [d7]).2 = []) := by
  have h := c7_mark_processed_twice
    [⟨"abcdefabcdefabcdefabcdef", "P7", some [⟨"S1", "S2", "x"⟩], "a", [], 9⟩]
    "abcdefabcdefabcdefabcdef" "abcdefabcdefabcdefabcdef-P7-S1-S2-0" "approved"
    ⟨"abcdefabcdefabcdefabcdef", "P7", some [⟨"S1", "S2", "x"⟩], "a", [], 9⟩
    none none "t1" "t2" 0 ⟨"S1", "S2", "x"⟩
    (Or.inl rfl) (by decide) (by decide) (by decide) (by decide) (by decide)
    (by decide) (by decide)
  exact ⟨h.1, h.2.1, by decide⟩
